import Mathlib

/-!
Verification of the packed-char crate: a 32-bit word storing either a
Unicode scalar value or a 22-bit unsigned integer, with no separate
discriminant. Shallow embedding of src/u22.rs and src/lib.rs: u32 values
are modelled as Nat with explicit reduction mod 2^32 where Rust would
discard overflowing bits.
-/

namespace PackedCharCrate

/-- The modulus of u32 arithmetic. -/
def U32_MOD : Nat := 2 ^ 32

/-- The value of u32::MAX. -/
def u32Max : Nat := 2 ^ 32 - 1

/-- Bitwise complement of a u32 value (the Rust ! operator on u32). -/
def not32 (x : Nat) : Nat := x ^^^ u32Max

/-- Left shift of a u32 value: bits shifted past bit 31 are discarded. -/
def shl32 (x k : Nat) : Nat := (x <<< k) % U32_MOD

/-- u32::leading_zeros: the count of zero bits from bit 31 downward. -/
def leadingZeros32 (x : Nat) : Nat :=
  ((List.range 32).takeWhile (fun i => !x.testBit (31 - i))).length

/-- u32::trailing_zeros: the count of zero bits from bit 0 upward. -/
def trailingZeros32 (x : Nat) : Nat :=
  ((List.range 32).takeWhile (fun i => !x.testBit i)).length

/-- The value of char::MAX as u32. -/
def charMax : Nat := 0x10FFFF

/-- From src/u22.rs: pub struct U22(u32). A 22-bit unsigned integer.
The bound is not part of the type, matching the Rust wrapper whose
unchecked constructor can be handed any u32. -/
structure U22 where
  val : Nat
deriving DecidableEq

/-- From src/u22.rs: pub struct U22FromU32Error(pub u32). Conversion
error carrying the u32 that failed to convert. -/
structure U22FromU32Error where
  val : Nat
deriving DecidableEq

namespace U22

/-- From src/u22.rs: pub const MAX: u32 = !(u32::MAX << 22). -/
def MAX : Nat := not32 (shl32 u32Max 22)

/-- From src/u22.rs: U22::from_u32, rejecting inputs above MAX with an
error carrying the input. -/
def from_u32 (n : Nat) : Except U22FromU32Error U22 :=
  if n > MAX then Except.error ⟨n⟩ else Except.ok ⟨n⟩

/-- From src/u22.rs: U22::from_u32_unchecked, storing the input without
validation. -/
def from_u32_unchecked (n : Nat) : U22 := ⟨n⟩

/-- From src/u22.rs: U22::as_u32, returning the stored magnitude. -/
def as_u32 (u : U22) : Nat := u.val

/-- From src/u22.rs: the derived Default for U22(u32), whose inner u32
defaults to 0. -/
def default : U22 := ⟨0⟩

end U22

/-- The set of Unicode scalar values: exactly the u32 inputs on which
char::from_u32 returns Some. -/
def isScalarValue (n : Nat) : Prop := n < 0xD800 ∨ (0xDFFF < n ∧ n < 0x110000)

instance (n : Nat) : Decidable (isScalarValue n) := by
  unfold isScalarValue; exact inferInstance

/-- A Rust char: a code point that is a Unicode scalar value. -/
def RustChar := {n : Nat // isScalarValue n}

instance : DecidableEq RustChar :=
  fun a b => decidable_of_iff (a.val = b.val) Subtype.ext_iff.symm

/-- char::from_u32: Some exactly on Unicode scalar values. -/
def charFromU32 (n : Nat) : Option RustChar :=
  if h : isScalarValue n then some ⟨n, h⟩ else none

/-- From src/lib.rs: pub struct PackedChar(u32). -/
structure PackedChar where
  word : Nat
deriving DecidableEq

/-- From src/lib.rs: pub enum Contents, the decoded contents of a
PackedChar. -/
inductive Contents where
  | Char : RustChar → Contents
  | U22 : U22 → Contents
deriving DecidableEq

namespace PackedChar

/-- From src/lib.rs: const SURROGATE_LOW: u32 = 0xD800. -/
def SURROGATE_LOW : Nat := 0xD800

/-- From src/lib.rs: const SURROGATE_HIGH: u32 = 0xDFFF. -/
def SURROGATE_HIGH : Nat := 0xDFFF

/-- From src/lib.rs: const SURROGATE_MASK = SURROGATE_LOW & SURROGATE_HIGH. -/
def SURROGATE_MASK : Nat := SURROGATE_LOW &&& SURROGATE_HIGH

/-- From src/lib.rs: const LEADING = (char::MAX as u32).leading_zeros(). -/
def LEADING : Nat := leadingZeros32 charMax

/-- From src/lib.rs: const LEADING_MASK = !(u32::MAX >> LEADING). -/
def LEADING_MASK : Nat := not32 (u32Max >>> LEADING)

/-- From src/lib.rs: const TRAILING = SURROGATE_LOW.trailing_zeros(). -/
def TRAILING : Nat := trailingZeros32 SURROGATE_LOW

/-- From src/lib.rs: const TRAILING_MASK = !(u32::MAX << TRAILING). -/
def TRAILING_MASK : Nat := not32 (shl32 u32Max TRAILING)

/-- From src/lib.rs: const MAX_U22_LEADING = U22::MAX.leading_zeros(). -/
def MAX_U22_LEADING : Nat := leadingZeros32 U22.MAX

/-- From src/lib.rs: PackedChar::from_char stores the code point as the
word, unmodified. -/
def from_char (c : RustChar) : PackedChar := ⟨c.val⟩

/-- From src/lib.rs: PackedChar::from_u22. With n the stored magnitude,
the word is ((n << MAX_U22_LEADING) & LEADING_MASK)
| (n & TRAILING_MASK) | SURROGATE_MASK. -/
def from_u22 (u : U22) : PackedChar :=
  ⟨((shl32 u.as_u32 MAX_U22_LEADING) &&& LEADING_MASK) |||
    (u.as_u32 &&& TRAILING_MASK) ||| SURROGATE_MASK⟩

/-- The u32 computed in the None branch of PackedChar::contents and
handed to U22::from_u32_unchecked:
(word & TRAILING_MASK) | ((word & LEADING_MASK) >> MAX_U22_LEADING). -/
def u22val (w : Nat) : Nat :=
  (w &&& TRAILING_MASK) ||| ((w &&& LEADING_MASK) >>> MAX_U22_LEADING)

/-- From src/lib.rs: PackedChar::contents. Decodes as a char when the
word is a valid scalar value, otherwise reverses the integer encoding
through the unchecked U22 constructor. -/
def contents (p : PackedChar) : Contents :=
  match charFromU32 p.word with
  | some c => Contents.Char c
  | none => Contents.U22 (U22.from_u32_unchecked (u22val p.word))

/-- From src/lib.rs: impl TryFrom of u32 for PackedChar, delegating to
U22::from_u32 then from_u22. -/
def try_from (n : Nat) : Except U22FromU32Error PackedChar :=
  match U22.from_u32 n with
  | Except.error e => Except.error e
  | Except.ok u => Except.ok (from_u22 u)

/-- From src/lib.rs: the derived Default for PackedChar(u32), whose
inner u32 defaults to 0. -/
def default : PackedChar := ⟨0⟩

/-- The PackedChar values produced by the public construction paths:
from_char, from_u22 on a bound-respecting U22, a successful try_from,
or the default value. -/
def Reachable (p : PackedChar) : Prop :=
  (∃ c, p = from_char c) ∨
  (∃ u : U22, u.val ≤ U22.MAX ∧ p = from_u22 u) ∨
  (∃ n, try_from n = Except.ok p) ∨
  p = default

end PackedChar

/-! ## Numeric values of the derived constants -/

theorem U22_MAX_eq : U22.MAX = 4194303 := by decide

theorem SURROGATE_MASK_eq : PackedChar.SURROGATE_MASK = 0xD800 := by decide

theorem LEADING_eq : PackedChar.LEADING = 11 := by decide

theorem LEADING_MASK_eq : PackedChar.LEADING_MASK = 0xFFE00000 := by decide

theorem TRAILING_eq : PackedChar.TRAILING = 11 := by decide

theorem TRAILING_MASK_eq : PackedChar.TRAILING_MASK = 0x7FF := by decide

theorem MAX_U22_LEADING_eq : PackedChar.MAX_U22_LEADING = 10 := by decide

end PackedCharCrate

namespace PackedCharCrate

/-! ## Bit-arithmetic toolkit -/

theorem and_mask_mid (x j k : Nat) :
    x &&& (2 ^ j - 1) * 2 ^ k = x / 2 ^ k % 2 ^ j * 2 ^ k := by
  apply Nat.eq_of_testBit_eq
  intro i
  rw [Nat.mul_comm (2 ^ j - 1), Nat.mul_comm (x / 2 ^ k % 2 ^ j)]
  rw [Nat.testBit_and, Nat.testBit_mul_pow_two, Nat.testBit_mul_pow_two,
    Nat.testBit_mod_two_pow, Nat.testBit_two_pow_sub_one,
    ← Nat.shiftRight_eq_div_pow, Nat.testBit_shiftRight]
  by_cases h : k ≤ i
  · have hik : k + (i - k) = i := by omega
    rw [hik]
    cases hx : x.testBit i <;> simp [h, hx]
  · simp [h]

theorem shl32_small (n k : Nat) (h : n * 2 ^ k < 2 ^ 32) : shl32 n k = n * 2 ^ k := by
  unfold shl32 U32_MOD
  rw [Nat.shiftLeft_eq]
  exact Nat.mod_eq_of_lt h

/-! ## The word produced by the integer encoding -/

theorem from_u22_word (v : Nat) (hv : v ≤ 4194303) :
    (PackedChar.from_u22 ⟨v⟩).word = 2 ^ 21 * (v / 2 ^ 11) + (0xD800 + v % 2 ^ 11) := by
  show ((shl32 v PackedChar.MAX_U22_LEADING) &&& PackedChar.LEADING_MASK) |||
      (v &&& PackedChar.TRAILING_MASK) ||| PackedChar.SURROGATE_MASK = _
  rw [MAX_U22_LEADING_eq, LEADING_MASK_eq, TRAILING_MASK_eq, SURROGATE_MASK_eq]
  have hB : v % 2 ^ 11 < 2 ^ 11 := Nat.mod_lt _ (by norm_num)
  have h1 : shl32 v 10 = v * 2 ^ 10 := shl32_small v 10 (by norm_num; omega)
  have h2 : v * 2 ^ 10 &&& 0xFFE00000 = 2 ^ 21 * (v / 2 ^ 11) := by
    rw [show (0xFFE00000 : Nat) = (2 ^ 11 - 1) * 2 ^ 21 by norm_num,
      and_mask_mid (v * 2 ^ 10) 11 21,
      show (2 : Nat) ^ 21 = 2 ^ 10 * 2 ^ 11 by norm_num,
      ← Nat.div_div_eq_div_mul, Nat.mul_div_cancel v (by norm_num : (0:Nat) < 2 ^ 10)]
    rw [Nat.mod_eq_of_lt (by rw [Nat.div_lt_iff_lt_mul (by norm_num : (0:Nat) < 2 ^ 11)]; norm_num; omega)]
    exact Nat.mul_comm _ _
  have h3 : v &&& 0x7FF = v % 2 ^ 11 := by
    rw [show (0x7FF : Nat) = 2 ^ 11 - 1 by norm_num]
    exact Nat.and_pow_two_sub_one_eq_mod v 11
  rw [h1, h2, h3, Nat.or_assoc, Nat.or_comm (v % 2 ^ 11) 0xD800]
  rw [show (0xD800 : Nat) = 2 ^ 11 * 27 by norm_num]
  rw [← Nat.mul_add_lt_is_or hB 27]
  rw [← Nat.mul_add_lt_is_or (show 2 ^ 11 * 27 + v % 2 ^ 11 < 2 ^ 21 by norm_num; omega) (v / 2 ^ 11)]

/-- Every word produced by the integer encoding lies outside the set of
Unicode scalar values: with a zero left chunk it falls in the surrogate
range, otherwise it exceeds the maximum code point. -/
theorem from_u22_not_scalar (v : Nat) (hv : v ≤ 4194303) :
    ¬ isScalarValue (PackedChar.from_u22 ⟨v⟩).word := by
  rw [from_u22_word v hv]
  unfold isScalarValue
  norm_num
  omega

/-- Decoding reverses the integer encoding: the u32 handed to the
unchecked U22 constructor is exactly the encoded value. -/
theorem u22val_from_u22 (v : Nat) (hv : v ≤ 4194303) :
    PackedChar.u22val (PackedChar.from_u22 ⟨v⟩).word = v := by
  rw [from_u22_word v hv]
  unfold PackedChar.u22val
  rw [MAX_U22_LEADING_eq, LEADING_MASK_eq, TRAILING_MASK_eq]
  have hB : v % 2 ^ 11 < 2 ^ 11 := Nat.mod_lt _ (by norm_num)
  have h1 : (2 ^ 21 * (v / 2 ^ 11) + (0xD800 + v % 2 ^ 11)) &&& 0x7FF = v % 2 ^ 11 := by
    rw [show (0x7FF : Nat) = 2 ^ 11 - 1 by norm_num, Nat.and_pow_two_sub_one_eq_mod]
    norm_num
    omega
  have h2 : (2 ^ 21 * (v / 2 ^ 11) + (0xD800 + v % 2 ^ 11)) &&& 0xFFE00000 = 2 ^ 21 * (v / 2 ^ 11) := by
    rw [show (0xFFE00000 : Nat) = (2 ^ 11 - 1) * 2 ^ 21 by norm_num, and_mask_mid]
    have hd : (2 ^ 21 * (v / 2 ^ 11) + (0xD800 + v % 2 ^ 11)) / 2 ^ 21 = v / 2 ^ 11 := by
      norm_num
      omega
    rw [hd, Nat.mod_eq_of_lt (by rw [Nat.div_lt_iff_lt_mul (by norm_num : (0:Nat) < 2 ^ 11)]; norm_num; omega)]
    exact Nat.mul_comm _ _
  rw [h1, h2]
  have h3 : (2 ^ 21 * (v / 2 ^ 11)) >>> 10 = 2 ^ 11 * (v / 2 ^ 11) := by
    rw [Nat.shiftRight_eq_div_pow,
      show 2 ^ 21 * (v / 2 ^ 11) = 2 ^ 10 * (2 ^ 11 * (v / 2 ^ 11)) by ring]
    exact Nat.mul_div_cancel_left _ (by norm_num)
  rw [h3, Nat.or_comm, ← Nat.mul_add_lt_is_or hB (v / 2 ^ 11)]
  omega

/-! ## Behaviour of contents on each construction path -/

theorem contents_from_char (c : RustChar) :
    (PackedChar.from_char c).contents = Contents.Char c := by
  unfold PackedChar.contents charFromU32 PackedChar.from_char
  rw [dif_pos c.property]
  rfl

theorem contents_not_scalar (p : PackedChar) (h : ¬ isScalarValue p.word) :
    p.contents = Contents.U22 (U22.from_u32_unchecked (PackedChar.u22val p.word)) := by
  unfold PackedChar.contents charFromU32
  rw [dif_neg h]

theorem contents_from_u22 (v : Nat) (hv : v ≤ 4194303) :
    (PackedChar.from_u22 ⟨v⟩).contents = Contents.U22 ⟨v⟩ := by
  rw [contents_not_scalar _ (from_u22_not_scalar v hv), u22val_from_u22 v hv]
  rfl

theorem try_from_ok (n : Nat) (p : PackedChar)
    (h : PackedChar.try_from n = Except.ok p) :
    n ≤ 4194303 ∧ p = PackedChar.from_u22 ⟨n⟩ := by
  unfold PackedChar.try_from U22.from_u32 at h
  rw [U22_MAX_eq] at h
  by_cases hn : n > 4194303
  · rw [if_pos hn] at h
    exact absurd h (by simp)
  · rw [if_neg hn] at h
    simp only [Except.ok.injEq] at h
    exact ⟨by omega, h.symm⟩

theorem try_from_ok_of_le (n : Nat) (hn : n ≤ 4194303) :
    PackedChar.try_from n = Except.ok (PackedChar.from_u22 ⟨n⟩) := by
  unfold PackedChar.try_from U22.from_u32
  rw [U22_MAX_eq, if_neg (by omega)]

theorem reachable_cases (p : PackedChar) (hp : PackedChar.Reachable p) :
    (∃ c, p = PackedChar.from_char c) ∨
    (∃ v, v ≤ 4194303 ∧ p = PackedChar.from_u22 ⟨v⟩) := by
  rcases hp with ⟨c, rfl⟩ | ⟨u, hu, rfl⟩ | ⟨n, hn⟩ | rfl
  · exact Or.inl ⟨c, rfl⟩
  · rw [U22_MAX_eq] at hu
    exact Or.inr ⟨u.val, hu, rfl⟩
  · obtain ⟨hn1, hn2⟩ := try_from_ok n p hn
    exact Or.inr ⟨n, hn1, hn2⟩
  · exact Or.inl ⟨⟨0, by norm_num [isScalarValue]⟩, rfl⟩

/-! ## The decode arithmetic never exceeds the 22-bit bound -/

theorem u22val_le (w : Nat) : PackedChar.u22val w ≤ 4194303 := by
  unfold PackedChar.u22val
  rw [TRAILING_MASK_eq, LEADING_MASK_eq, MAX_U22_LEADING_eq]
  have h1 : w &&& 0x7FF < 2 ^ 22 := lt_of_le_of_lt Nat.and_le_right (by norm_num)
  have h2 : (w &&& 0xFFE00000) >>> 10 < 2 ^ 22 := by
    rw [Nat.shiftRight_eq_div_pow]
    calc (w &&& 0xFFE00000) / 2 ^ 10 ≤ 0xFFE00000 / 2 ^ 10 :=
          Nat.div_le_div_right Nat.and_le_right
      _ < 2 ^ 22 := by norm_num
  have h3 := Nat.or_lt_two_pow h1 h2
  norm_num at h3
  omega

/-! ## Extracted components of the leading-chunk placement -/

theorem shl_and_leading (v : Nat) (hv : v ≤ 4194303) :
    v * 2 ^ 10 &&& 0xFFE00000 = 2 ^ 21 * (v / 2 ^ 11) := by
  rw [show (0xFFE00000 : Nat) = (2 ^ 11 - 1) * 2 ^ 21 by norm_num,
    and_mask_mid (v * 2 ^ 10) 11 21,
    show (2 : Nat) ^ 21 = 2 ^ 10 * 2 ^ 11 by norm_num,
    ← Nat.div_div_eq_div_mul, Nat.mul_div_cancel v (by norm_num : (0:Nat) < 2 ^ 10)]
  rw [Nat.mod_eq_of_lt (by rw [Nat.div_lt_iff_lt_mul (by norm_num : (0:Nat) < 2 ^ 11)]; norm_num; omega)]
  exact Nat.mul_comm _ _

theorem word_and_leading (v : Nat) (hv : v ≤ 4194303) :
    (2 ^ 21 * (v / 2 ^ 11) + (0xD800 + v % 2 ^ 11)) &&& 0xFFE00000 = 2 ^ 21 * (v / 2 ^ 11) := by
  rw [show (0xFFE00000 : Nat) = (2 ^ 11 - 1) * 2 ^ 21 by norm_num, and_mask_mid]
  have hd : (2 ^ 21 * (v / 2 ^ 11) + (0xD800 + v % 2 ^ 11)) / 2 ^ 21 = v / 2 ^ 11 := by
    norm_num
    omega
  rw [hd, Nat.mod_eq_of_lt (by rw [Nat.div_lt_iff_lt_mul (by norm_num : (0:Nat) < 2 ^ 11)]; norm_num; omega)]
  exact Nat.mul_comm _ _

/-! ## Claim theorems -/

/-- C1: Character round-trip. For every Unicode scalar value, from_char
stores the code point as the 32-bit word unmodified, and contents on
the result returns the Char variant holding that scalar value. -/
theorem C1_char_round_trip (n : Nat) (h : isScalarValue n) :
    (PackedChar.from_char ⟨n, h⟩).word = n ∧
    (PackedChar.from_char ⟨n, h⟩).contents = Contents.Char ⟨n, h⟩ :=
  ⟨rfl, contents_from_char ⟨n, h⟩⟩

theorem C1_char_round_trip_witness :
    isScalarValue 97 ∧
    ((PackedChar.from_char ⟨97, by decide⟩).word = 97 ∧
     (PackedChar.from_char ⟨97, by decide⟩).contents = Contents.Char ⟨97, by decide⟩) :=
  ⟨by decide, C1_char_round_trip 97 (by decide)⟩

/-- C2: Integer round-trip. For every v at most 4194303, encoding v via
from_u22 (or through a successful try_from) then decoding yields the
U22 variant holding exactly v, and never the Char variant, even when v
is itself a valid scalar code point. -/
theorem C2_u22_round_trip (v : Nat) (hv : v ≤ 4194303) :
    (PackedChar.from_u22 ⟨v⟩).contents = Contents.U22 ⟨v⟩ ∧
    PackedChar.try_from v = Except.ok (PackedChar.from_u22 ⟨v⟩) ∧
    ∀ c, (PackedChar.from_u22 ⟨v⟩).contents ≠ Contents.Char c := by
  refine ⟨contents_from_u22 v hv, try_from_ok_of_le v hv, ?_⟩
  intro c hc
  rw [contents_from_u22 v hv] at hc
  exact Contents.noConfusion hc

theorem C2_u22_round_trip_witness :
    (97 : Nat) ≤ 4194303 ∧
    ((PackedChar.from_u22 ⟨97⟩).contents = Contents.U22 ⟨97⟩ ∧
     PackedChar.try_from 97 = Except.ok (PackedChar.from_u22 ⟨97⟩) ∧
     ∀ c, (PackedChar.from_u22 ⟨97⟩).contents ≠ Contents.Char c) :=
  ⟨by norm_num, C2_u22_round_trip 97 (by norm_num)⟩

/-- C3: Mutual exclusivity. The words reachable from from_char and the
words reachable from from_u22 over bound-respecting U22 values are
disjoint: no character word ever coincides with an integer word. -/
theorem C3_encodings_disjoint (c : RustChar) (u : U22) (hu : u.val ≤ 4194303) :
    (PackedChar.from_char c).word ≠ (PackedChar.from_u22 u).word := by
  intro h
  exact from_u22_not_scalar u.val hu (h ▸ c.property)

theorem C3_encodings_disjoint_witness :
    ((⟨97⟩ : U22).val ≤ 4194303) ∧
    (PackedChar.from_char ⟨97, by decide⟩).word ≠ (PackedChar.from_u22 ⟨97⟩).word :=
  ⟨by norm_num, C3_encodings_disjoint ⟨97, by decide⟩ ⟨97⟩ (by norm_num)⟩

/-- C4: Left-chunk shift amount. The integer encoding places the high
11-bit chunk of v (the value v >>> 11) into the top 11 bits of the
word, which equals shifting that chunk left by 21; this placement
coincides with shifting v left by MAX_U22_LEADING and masking with
LEADING_MASK, as the code does; and the left chunk is recovered by
extracting the top 11 bits and shifting right by 21. -/
theorem C4_left_chunk (v : Nat) (hv : v ≤ 4194303) :
    (PackedChar.from_u22 ⟨v⟩).word &&& PackedChar.LEADING_MASK = (v >>> 11) <<< 21 ∧
    (v >>> 11) <<< 21 = shl32 v PackedChar.MAX_U22_LEADING &&& PackedChar.LEADING_MASK ∧
    ((PackedChar.from_u22 ⟨v⟩).word &&& PackedChar.LEADING_MASK) >>> 21 = v >>> 11 := by
  have hchunk : (v >>> 11) <<< 21 = 2 ^ 21 * (v / 2 ^ 11) := by
    rw [Nat.shiftRight_eq_div_pow, Nat.shiftLeft_eq]
    exact Nat.mul_comm _ _
  have hA : (PackedChar.from_u22 ⟨v⟩).word &&& PackedChar.LEADING_MASK = 2 ^ 21 * (v / 2 ^ 11) := by
    rw [from_u22_word v hv, LEADING_MASK_eq]
    exact word_and_leading v hv
  have hC : shl32 v PackedChar.MAX_U22_LEADING &&& PackedChar.LEADING_MASK = 2 ^ 21 * (v / 2 ^ 11) := by
    rw [MAX_U22_LEADING_eq, LEADING_MASK_eq, shl32_small v 10 (by norm_num; omega)]
    exact shl_and_leading v hv
  refine ⟨by rw [hA, hchunk], by rw [hC, hchunk], ?_⟩
  rw [hA, Nat.shiftRight_eq_div_pow, Nat.shiftRight_eq_div_pow]
  exact Nat.mul_div_cancel_left _ (by norm_num)

theorem C4_left_chunk_witness :
    (2796202 : Nat) ≤ 4194303 ∧
    ((PackedChar.from_u22 ⟨2796202⟩).word &&& PackedChar.LEADING_MASK = (2796202 >>> 11) <<< 21 ∧
     (2796202 >>> 11) <<< 21 = shl32 2796202 PackedChar.MAX_U22_LEADING &&& PackedChar.LEADING_MASK ∧
     ((PackedChar.from_u22 ⟨2796202⟩).word &&& PackedChar.LEADING_MASK) >>> 21 = 2796202 >>> 11) :=
  ⟨by norm_num, C4_left_chunk 2796202 (by norm_num)⟩

/-- C5: Rejection raises iff the input exceeds the 22-bit maximum, with
the error carrying exactly the offending input; below the bound both
construction paths succeed holding exactly the input. -/
theorem C5_rejection (n : Nat) (h : n < 2 ^ 32) :
    (n ≤ 4194303 → U22.from_u32 n = Except.ok ⟨n⟩ ∧
      PackedChar.try_from n = Except.ok (PackedChar.from_u22 ⟨n⟩)) ∧
    (4194303 < n → U22.from_u32 n = Except.error ⟨n⟩ ∧
      PackedChar.try_from n = Except.error ⟨n⟩) := by
  constructor
  · intro hn
    refine ⟨?_, try_from_ok_of_le n hn⟩
    unfold U22.from_u32
    rw [U22_MAX_eq, if_neg (by omega)]
  · intro hn
    have h1 : U22.from_u32 n = Except.error ⟨n⟩ := by
      unfold U22.from_u32
      rw [U22_MAX_eq, if_pos (by omega)]
    refine ⟨h1, ?_⟩
    unfold PackedChar.try_from
    rw [h1]

theorem C5_rejection_witness :
    (4194304 : Nat) < 2 ^ 32 ∧
    (((4194304 : Nat) ≤ 4194303 → U22.from_u32 4194304 = Except.ok ⟨4194304⟩ ∧
       PackedChar.try_from 4194304 = Except.ok (PackedChar.from_u22 ⟨4194304⟩)) ∧
     ((4194303 : Nat) < 4194304 → U22.from_u32 4194304 = Except.error ⟨4194304⟩ ∧
       PackedChar.try_from 4194304 = Except.error ⟨4194304⟩)) :=
  ⟨by norm_num, C5_rejection 4194304 (by norm_num)⟩

/-- C6: Structural equality law and injectivity. Two PackedChar values
produced by the public constructors are equal exactly when their
decoded contents are equal, and each encoding is injective: distinct
characters, or distinct bounded integers, never produce the same word. -/
theorem C6_structural_equality (p q : PackedChar)
    (hp : PackedChar.Reachable p) (hq : PackedChar.Reachable q) :
    (p = q ↔ p.contents = q.contents) ∧
    (∀ c d : RustChar, PackedChar.from_char c = PackedChar.from_char d → c = d) ∧
    (∀ x y : Nat, x ≤ 4194303 → y ≤ 4194303 →
      PackedChar.from_u22 ⟨x⟩ = PackedChar.from_u22 ⟨y⟩ → x = y) := by
  refine ⟨?_, ?_, ?_⟩
  · constructor
    · intro h
      rw [h]
    · intro h
      rcases reachable_cases p hp with ⟨c, rfl⟩ | ⟨v, hv, rfl⟩ <;>
        rcases reachable_cases q hq with ⟨d, rfl⟩ | ⟨w, hw, rfl⟩
      · rw [contents_from_char, contents_from_char] at h
        injection h with h1
        rw [h1]
      · rw [contents_from_char, contents_from_u22 w hw] at h
        exact Contents.noConfusion h
      · rw [contents_from_u22 v hv, contents_from_char] at h
        exact Contents.noConfusion h
      · rw [contents_from_u22 v hv, contents_from_u22 w hw] at h
        injection h with h1
        injection h1 with h2
        rw [h2]
  · intro c d h
    have h1 : c.val = d.val := congrArg PackedChar.word h
    exact Subtype.ext h1
  · intro x y hx hy h
    have h1 := contents_from_u22 x hx
    rw [h, contents_from_u22 y hy] at h1
    injection h1 with h2
    injection h2 with h3
    exact h3.symm

theorem C6_structural_equality_witness :
    PackedChar.Reachable (PackedChar.from_char ⟨97, by decide⟩) ∧
    PackedChar.Reachable (PackedChar.from_u22 ⟨97⟩) ∧
    ((PackedChar.from_char ⟨97, by decide⟩ = PackedChar.from_u22 ⟨97⟩ ↔
      (PackedChar.from_char ⟨97, by decide⟩).contents = (PackedChar.from_u22 ⟨97⟩).contents) ∧
     (∀ c d : RustChar, PackedChar.from_char c = PackedChar.from_char d → c = d) ∧
     (∀ x y : Nat, x ≤ 4194303 → y ≤ 4194303 →
       PackedChar.from_u22 ⟨x⟩ = PackedChar.from_u22 ⟨y⟩ → x = y)) :=
  ⟨Or.inl ⟨⟨97, by decide⟩, rfl⟩,
   Or.inr (Or.inl ⟨⟨97⟩, by decide, rfl⟩),
   C6_structural_equality _ _ (Or.inl ⟨⟨97, by decide⟩, rfl⟩)
     (Or.inr (Or.inl ⟨⟨97⟩, by decide, rfl⟩))⟩

/-- C7: Decode totality. On every PackedChar produced by from_char,
from_u22, try_from, or the default value, contents returns one of the
two variants, and in the integer branch the u32 handed to the
unchecked U22 constructor is at most 4194303, satisfying its
precondition. -/
theorem C7_decode_total (p : PackedChar) (hp : PackedChar.Reachable p) :
    (∃ c, p.contents = Contents.Char c) ∨
    (PackedChar.u22val p.word ≤ 4194303 ∧
     p.contents = Contents.U22 (U22.from_u32_unchecked (PackedChar.u22val p.word))) := by
  rcases reachable_cases p hp with ⟨c, rfl⟩ | ⟨v, hv, rfl⟩
  · exact Or.inl ⟨c, contents_from_char c⟩
  · exact Or.inr ⟨u22val_le _, contents_not_scalar _ (from_u22_not_scalar v hv)⟩

theorem C7_decode_total_witness :
    PackedChar.Reachable (PackedChar.from_u22 ⟨42⟩) ∧
    ((∃ c, (PackedChar.from_u22 ⟨42⟩).contents = Contents.Char c) ∨
     (PackedChar.u22val (PackedChar.from_u22 ⟨42⟩).word ≤ 4194303 ∧
      (PackedChar.from_u22 ⟨42⟩).contents =
        Contents.U22 (U22.from_u32_unchecked (PackedChar.u22val (PackedChar.from_u22 ⟨42⟩).word)))) :=
  ⟨Or.inr (Or.inl ⟨⟨42⟩, by decide, rfl⟩),
   C7_decode_total _ (Or.inr (Or.inl ⟨⟨42⟩, by decide, rfl⟩))⟩

/-- C8: Default value. The default PackedChar wraps the all-zero word,
and its contents decode to the Char variant holding the null
character. -/
theorem C8_default :
    PackedChar.default.word = 0 ∧
    PackedChar.default.contents = Contents.Char ⟨0, by decide⟩ := by
  refine ⟨rfl, ?_⟩
  have h : PackedChar.default = PackedChar.from_char ⟨0, by decide⟩ := rfl
  rw [h, contents_from_char]

/-- C9: Decode is safe on every 32-bit word, reachable or not: when the
word is not a valid scalar value, the integer computed by the decode
arithmetic never exceeds 4194303, so contents never hands the
unchecked U22 constructor an out-of-bound value. -/
theorem C9_decode_safe (w : Nat) (h1 : w < 2 ^ 32) (h2 : ¬ isScalarValue w) :
    PackedChar.u22val w ≤ 4194303 :=
  u22val_le w

theorem C9_decode_safe_witness :
    (0xD800 : Nat) < 2 ^ 32 ∧ ¬ isScalarValue 0xD800 ∧
    PackedChar.u22val 0xD800 ≤ 4194303 :=
  ⟨by norm_num, by decide, C9_decode_safe 0xD800 (by norm_num) (by decide)⟩

/-- C10: U22 has a default value: its stored magnitude is 0, which
satisfies the 22-bit bound invariant. -/
theorem C10_u22_default :
    U22.default.as_u32 = 0 ∧ U22.default.as_u32 ≤ U22.MAX :=
  ⟨rfl, by decide⟩

end PackedCharCrate
